import Mathlib

/-!
Shallow embedding of the slot-filling / dialogue-routing core of the
`odha-chat` application (single source file `app.py`), together with
theorems checking the natural-language specification against it.

Modelling conventions:
* Python strings are Lean `String`s; scanning works over `String.data`
  (one entry per Unicode code point, as in Python).
* `re.search` is embedded as an explicit leftmost scan with the same
  greedy/backtracking order as the concrete patterns in the source.
* The character classes `\d` and `\s` are modelled at the ASCII level
  (the source only ever feeds them Korean/ASCII text; Korean characters
  are neither digits nor whitespace).
* External effects (the geocoding HTTP lookup and the wall clock used by
  `resolve_gochra_datetime`) are passed in as an explicit environment.
* A Python dict with a fixed key set (the per-conversation `user_info`
  mapping) is a structure of `Option` fields; a missing key is `none`.
-/

set_option maxRecDepth 4096

namespace Odha

/-- ASCII model of Python regex `\s` (space, tab, newline, CR, VT, FF). -/
def isSpaceCh (c : Char) : Bool :=
  c == ' ' || c == '\t' || c == '\n' || c == '\r' ||
  c == Char.ofNat 11 || c == Char.ofNat 12

/-- ASCII model of Python regex `\d`. -/
def isDigitCh (c : Char) : Bool :=
  decide (48 ≤ c.toNat) && decide (c.toNat ≤ 57)

/-- The value of one decimal digit character, as used by Python `int`. -/
def digitVal (c : Char) : Nat := c.toNat - 48

/-- Python `int` on a nonempty decimal-digit string. -/
def strToNat (s : String) : Nat :=
  s.data.foldl (fun a c => a * 10 + digitVal c) 0

/-- The decimal digit character for a value below ten. -/
def digitChar (n : Nat) : Char := Char.ofNat (48 + n)

/-- Fuel-indexed big-endian decimal digit list of a natural number. -/
def natDigitsAux : Nat → Nat → List Char
  | 0, _ => []
  | fuel + 1, n =>
    if n < 10 then [digitChar n]
    else natDigitsAux fuel (n / 10) ++ [digitChar (n % 10)]

/-- Python `str` on a natural number. -/
def natRepr (n : Nat) : String := ⟨natDigitsAux (n + 1) n⟩

/-- Python format specifier `{:02d}` on a natural number. -/
def fmt02 (n : Nat) : String :=
  if n < 10 then "0" ++ natRepr n else natRepr n

/-- Python `str.lower`, at the ASCII level (Korean text is unaffected). -/
def lowerStr (s : String) : String := ⟨s.data.map Char.toLower⟩

/-- Python `str.strip` on the underlying character list. -/
def stripChars (cs : List Char) : List Char :=
  ((cs.dropWhile isSpaceCh).reverse.dropWhile isSpaceCh).reverse

/-- Python `str.strip`. -/
def stripStr (s : String) : String := ⟨stripChars s.data⟩

/-- Contiguous-sublist test on character lists. -/
def listSublist (needle : List Char) : List Char → Bool
  | [] => needle.isEmpty
  | c :: t => needle.isPrefixOf (c :: t) || listSublist needle t

/-- Python `needle in hay` on strings (substring containment). -/
def strContains (hay needle : String) : Bool :=
  listSublist needle.data hay.data

/-! ### Simple keyword-based predicates and extractors (`app.py` lines 62-92, 145-153) -/

/-- `app.py` line 62: `is_general_mode_request`. -/
def is_general_mode_request (text : String) : Bool :=
  strContains text "일반으로" || strContains text "api 없이" || strContains text "대화만"

/-- `app.py` lines 34-38: the closed list `KNOWN_PLACES`. -/
def KNOWN_PLACES : List String :=
  ["서울", "부산", "대구", "인천", "광주", "대전", "울산", "세종",
   "경기", "강원", "충북", "충남", "전북", "전남", "경북", "경남", "제주",
   "김해", "수원", "창원", "전주", "포항"]

/-- Male synonym list from `extract_gender` (`app.py` line 77). -/
def maleWords : List String := ["남성", "남자", "남", "man", "male", "boy"]

/-- Female synonym list from `extract_gender` (`app.py` line 80). -/
def femaleWords : List String := ["여성", "여자", "여", "woman", "female", "girl"]

/-- `app.py` lines 75-83: `extract_gender`. -/
def extract_gender (text : String) : Option String :=
  let t := lowerStr text
  if maleWords.any (fun w => strContains t w) then some "남성"
  else if femaleWords.any (fun w => strContains t w) then some "여성"
  else none

/-- The character class `[가-힣a-zA-Z]` of the place regex (`app.py` line 86). -/
def placeCls (c : Char) : Bool :=
  (decide (0xAC00 ≤ c.toNat) && decide (c.toNat ≤ 0xD7A3)) ||
  (decide (97 ≤ c.toNat) && decide (c.toNat ≤ 122)) ||
  (decide (65 ≤ c.toNat) && decide (c.toNat ≤ 90))

/-- The suffix alternation `(에서|출생|태어났|태어난)` of the place regex. -/
def placeSuffixes : List String := ["에서", "출생", "태어났", "태어난"]

/-- Does `[\s]*(에서|출생|태어났|태어난)` match at the head of `cs`? -/
def placeSfxAt (cs : List Char) : Bool :=
  placeSuffixes.any (fun w => w.data.isPrefixOf (cs.dropWhile isSpaceCh))

/-- Backtracking of the greedy `[가-힣a-zA-Z]+` group: `revPre` is the
current candidate group reversed, `rest` the remainder; chars are given
back one at a time until the suffix alternation matches. -/
def placeShrink : List Char → List Char → Option String
  | [], _ => none
  | c :: revPre, rest =>
    if placeSfxAt rest then some ⟨(c :: revPre).reverse⟩
    else placeShrink revPre (c :: rest)

/-- One anchored attempt of the place regex at the head of `cs`. -/
def matchPlaceAt (cs : List Char) : Option String :=
  placeShrink (cs.takeWhile placeCls).reverse (cs.dropWhile placeCls)

/-- `re.search` scan of the place regex: leftmost successful position. -/
def placeSearch : List Char → Option String
  | [] => none
  | c :: t =>
    match matchPlaceAt (c :: t) with
    | some g => some g
    | none => placeSearch t

/-- `app.py` lines 85-92: `extract_place` (regex strategy first, then the
closed known-place list in order). -/
def extract_place (text : String) : Option String :=
  match placeSearch text.data with
  | some g => some g
  | none => KNOWN_PLACES.find? (fun p => strContains text p)

/-- Keyword list of `is_astrology_query` (`app.py` line 146). -/
def astrologyKeywords : List String :=
  ["운세", "오늘", "점성", "궁합", "차트", "별자리", "행성", "출생", "사주",
   "궁도", "분석해 줘", "분석해주세요", "알려줘", "천문도", "라시", "점성학", "추천"]

/-- `app.py` lines 145-147: `is_astrology_query`. -/
def is_astrology_query (text : String) : Bool :=
  astrologyKeywords.any (fun k => strContains (lowerStr text) k)

/-- Keyword list of `is_rasi_analysis_request` (`app.py` line 150). -/
def rasiKeywords : List String := ["라시차트", "천문도", "라그나", "차트를 분석"]

/-- `app.py` lines 149-150: `is_rasi_analysis_request`. -/
def is_rasi_analysis_request (text : String) : Bool :=
  rasiKeywords.any (fun k => strContains (lowerStr text) k)

/-- `app.py` lines 152-153: `is_short_response`. -/
def is_short_response (text : String) : Bool :=
  decide ((stripChars text.data).length < 10)

/-! ### Geocoding adapter (`app.py` lines 65-73) -/

/-- One JSON result row of the nominatim lookup: its `lat`/`lon` strings. -/
structure GeoResult where
  lat : String
  lon : String
deriving DecidableEq

/-- `app.py` lines 65-73: `get_coordinates`.  The external HTTP lookup is
abstracted as its outcome: `none` models a raised exception (network
error or malformed JSON), `some rs` the decoded result array. -/
def get_coordinates (lookup : Option (List GeoResult)) : String :=
  match lookup with
  | some (r :: _) => r.lat ++ "," ++ r.lon
  | some [] => "35.2721355,128.8452281"
  | none => "35.2721355,128.8452281"

/-! ### Relative-date resolver (`app.py` lines 47-60) -/

/-- The wall clock: `fmtDays n` is
`(datetime.now() + timedelta(days=n)).strftime("%Y-%m-%dT%H:%M:%S+09:00")`,
and `weekday` is `datetime.now().weekday()`. -/
structure Clock where
  fmtDays : Nat → String
  weekday : Nat

/-- `app.py` lines 47-60: `resolve_gochra_datetime`. -/
def resolve_gochra_datetime (clk : Clock) (text : String) : String :=
  let t := lowerStr text
  if strContains t "오늘" then clk.fmtDays 0
  else if strContains t "내일" then clk.fmtDays 1
  else if strContains t "모레" then clk.fmtDays 2
  else if strContains t "금요일" then
    clk.fmtDays (Int.toNat (Int.emod (4 - (clk.weekday : Int)) 7))
  else clk.fmtDays 0

/-- The external world of one turn: geocoding outcome per place name, and
the wall clock. -/
structure Env where
  geocode : String → Option (List GeoResult)
  clock : Clock

/-- A fixed concrete environment (lookup always fails, constant clock),
used to evaluate the embedding on concrete inputs. -/
def env0 : Env := ⟨fun _ => none, ⟨fun _ => "", 0⟩⟩

/-! ### Date regex of `app.py` line 96: group `\d{4}`, separator class
(년, hyphen, slash, dot, space) once or more, group `\d{1,2}`, separator
class (월, hyphen, slash, dot, space) once or more, group `\d{1,2}`,
then zero or more of (일, whitespace). -/

/-- The year separator class: 년, hyphen, slash, dot, space. -/
def isSep1 (c : Char) : Bool :=
  c == '년' || c == '-' || c == '/' || c == '.' || c == ' '

/-- The month separator class: 월, hyphen, slash, dot, space. -/
def isSep2 (c : Char) : Bool :=
  c == '월' || c == '-' || c == '/' || c == '.' || c == ' '

/-- Take exactly `n` characters satisfying `p`. -/
def takeExact (p : Char → Bool) : Nat → List Char → Option (List Char × List Char)
  | 0, cs => some ([], cs)
  | _ + 1, [] => none
  | n + 1, c :: cs =>
    if p c then
      match takeExact p n cs with
      | some (t, r) => some (c :: t, r)
      | none => none
    else none

/-- Greedy `[class]+`: requires at least one class character, consumes the
maximal run.  (Maximal munch is exact here: in every use the following
pattern piece starts with a digit, and the classes contain no digit.) -/
def dropClass1Plus (p : Char → Bool) (cs : List Char) : Option (List Char) :=
  match cs with
  | [] => none
  | c :: t => if p c then some (t.dropWhile p) else none

/-- Greedy `(\d{1,2})` followed by the month separator class once or
more, with the two-then-one backtracking order of the regex engine. -/
def monthThen (cs : List Char) : Option (String × List Char) :=
  match cs with
  | c1 :: c2 :: rest =>
    if isDigitCh c1 then
      if isDigitCh c2 then
        match dropClass1Plus isSep2 rest with
        | some r => some (⟨[c1, c2]⟩, r)
        | none =>
          match dropClass1Plus isSep2 (c2 :: rest) with
          | some r => some (⟨[c1]⟩, r)
          | none => none
      else
        match dropClass1Plus isSep2 (c2 :: rest) with
        | some r => some (⟨[c1]⟩, r)
        | none => none
    else none
  | _ => none

/-- Greedy `(\d{1,2})` for the day group; its continuation — zero or
more of (일, whitespace) — always matches, so no backtracking arises. -/
def takeUpTo2Digits (cs : List Char) : Option String :=
  match cs with
  | c1 :: c2 :: _ =>
    if isDigitCh c1 then
      if isDigitCh c2 then some ⟨[c1, c2]⟩ else some ⟨[c1]⟩
    else none
  | [c1] => if isDigitCh c1 then some ⟨[c1]⟩ else none
  | [] => none

/-- One anchored attempt of the date regex; yields the groups `(y, m, d)`. -/
def matchDateAt (cs : List Char) : Option (String × String × String) :=
  match takeExact isDigitCh 4 cs with
  | none => none
  | some (ys, r1) =>
    match dropClass1Plus isSep1 r1 with
    | none => none
    | some r2 =>
      match monthThen r2 with
      | none => none
      | some (ms, r3) =>
        match takeUpTo2Digits r3 with
        | none => none
        | some ds => some (⟨ys⟩, ms, ds)

/-- `re.search` scan of the date regex: leftmost successful position. -/
def dateSearch : List Char → Option (String × String × String)
  | [] => none
  | c :: t =>
    match matchDateAt (c :: t) with
    | some res => some res
    | none => dateSearch t

/-! ### Time regex `(오전|오후)?\s*(\d{1,2})시(?:\s*(\d{1,2})분)?`
(`app.py` line 97) -/

/-- Greedy `(\d{1,2})` followed by the literal `시`, with the regex
backtracking order (two digits preferred). -/
def hourThen (cs : List Char) : Option (String × List Char) :=
  match cs with
  | c1 :: c2 :: c3 :: rest =>
    if isDigitCh c1 && isDigitCh c2 && (c3 == '시') then some (⟨[c1, c2]⟩, rest)
    else if isDigitCh c1 && (c2 == '시') then some (⟨[c1]⟩, c3 :: rest)
    else none
  | [c1, c2] => if isDigitCh c1 && (c2 == '시') then some (⟨[c1]⟩, []) else none
  | _ => none

/-- The optional non-capturing minute group `(?:\s*(\d{1,2})분)?`; returns
the captured minute group when the optional part matches. -/
def minuteTry (cs : List Char) : Option String :=
  match cs.dropWhile isSpaceCh with
  | c1 :: c2 :: c3 :: _ =>
    if isDigitCh c1 && isDigitCh c2 && (c3 == '분') then some ⟨[c1, c2]⟩
    else if isDigitCh c1 && (c2 == '분') then some ⟨[c1]⟩
    else none
  | [c1, c2] => if isDigitCh c1 && (c2 == '분') then some ⟨[c1]⟩ else none
  | _ => none

/-- The part of the time regex after the optional AM/PM group. -/
def timeCore (cs : List Char) : Option (String × Option String) :=
  match hourThen (cs.dropWhile isSpaceCh) with
  | none => none
  | some (h, r) => some (h, minuteTry r)

/-- Anchored time-regex attempt with the AM/PM group empty. -/
def matchTimeNoAmpm (cs : List Char) : Option (Option String × String × Option String) :=
  match timeCore cs with
  | some (h, mm) => some (none, h, mm)
  | none => none

/-- One anchored attempt of the time regex; yields `(ampm, hour, minute)`.
The optional group tries `오전`, then `오후`, then empty. -/
def matchTimeAt (cs : List Char) : Option (Option String × String × Option String) :=
  if ("오전".data).isPrefixOf cs then
    match timeCore (cs.drop 2) with
    | some (h, mm) => some (some "오전", h, mm)
    | none => matchTimeNoAmpm cs
  else if ("오후".data).isPrefixOf cs then
    match timeCore (cs.drop 2) with
    | some (h, mm) => some (some "오후", h, mm)
    | none => matchTimeNoAmpm cs
  else matchTimeNoAmpm cs

/-- `re.search` scan of the time regex: leftmost successful position. -/
def timeSearch : List Char → Option (Option String × String × Option String)
  | [] => none
  | c :: t =>
    match matchTimeAt (c :: t) with
    | some res => some res
    | none => timeSearch t

/-! ### Session field mapping and the extraction merge
(`app.py` lines 94-120) -/

/-- The per-conversation `user_info` dict.  Its key set is fixed in the
source, so it is a structure of `Option` fields; `none` means the key is
absent from the dict. -/
structure Fields where
  datetime : Option String := none
  place : Option String := none
  coordinates : Option String := none
  usergender : Option String := none
  birthdaytype : Option String := none
  gochradatetime : Option String := none
deriving DecidableEq

/-- The empty `user_info` dict set by `start_chat` (`app.py` line 197). -/
def emptyFields : Fields := {}

/-- Python truthiness of the `user_info` dict: false exactly when no key
is present. -/
def fieldsEmpty (f : Fields) : Bool :=
  f.datetime.isNone && f.place.isNone && f.coordinates.isNone &&
  f.usergender.isNone && f.birthdaytype.isNone && f.gochradatetime.isNone

/-- `app.py` line 104: the committed hour.  `str(int(h) + 12)` followed by
`int(hour)` in the format string is embedded as the numeric value. -/
def committedHour (ampm : Option String) (h : String) : Nat :=
  if ampm = some "오후" ∧ strToNat h < 12 then strToNat h + 12 else strToNat h

/-- `app.py` line 105: the committed minute (`mm if mm else "00"`). -/
def committedMinute (mm : Option String) : Nat :=
  match mm with
  | some s => strToNat s
  | none => 0

/-- `app.py` lines 94-120: `parse_and_store_user_info`.  Statement order
follows the source: date/time, place (with geocoding), gender, calendar
type, relative date. -/
def parse_and_store_user_info (env : Env) (user_input : String) (session : Fields) : Fields :=
  let r1 :=
    match dateSearch user_input.data with
    | some (y, m, d) =>
      let hm : Nat × Nat :=
        match timeSearch user_input.data with
        | some (ampm, h, mm) => (committedHour ampm h, committedMinute mm)
        | none => (12, 0)
      { session with
        datetime := some (y ++ "-" ++ fmt02 (strToNat m) ++ "-" ++ fmt02 (strToNat d) ++
          "T" ++ fmt02 hm.1 ++ ":" ++ fmt02 hm.2 ++ ":00+09:00") }
    | none => session
  let r2 :=
    match extract_place user_input with
    | some place =>
      { r1 with place := some place,
                coordinates := some (get_coordinates (env.geocode place)) }
    | none => r1
  let r3 :=
    match extract_gender user_input with
    | some g => { r2 with usergender := some g }
    | none => r2
  let r4 := { r3 with
    birthdaytype :=
      some (if strContains user_input "음력" then "음력" else r3.birthdaytype.getD "양력") }
  { r4 with gochradatetime := some (resolve_gochra_datetime env.clock user_input) }

/-! ### Missing-field validator (`app.py` lines 122-131) -/

/-- `app.py` line 123: the `required` key list, in source order. -/
def requiredFields : List String := ["datetime", "place", "coordinates", "usergender"]

/-- `app.py` lines 125-130: the `questions` prompt dict. -/
def questionFor (k : String) : String :=
  if k = "datetime" then "⏰ 태어난 날짜와 시간을 알려주세요."
  else if k = "place" then "📍 태어난 지역을 알려주세요."
  else if k = "coordinates" then "🌐 출생지 정보를 더 정확히 알려주세요."
  else "👤 성별을 알려주세요. (남성/여성)"

/-- Python `k in payload` for the fixed key set of `user_info`. -/
def fieldHas (payload : Fields) (k : String) : Bool :=
  if k = "datetime" then payload.datetime.isSome
  else if k = "place" then payload.place.isSome
  else if k = "coordinates" then payload.coordinates.isSome
  else if k = "usergender" then payload.usergender.isSome
  else false

/-- `app.py` lines 122-131: `check_missing_fields`. -/
def check_missing_fields (payload : Fields) : List String :=
  (requiredFields.filter (fun k => !(fieldHas payload k))).map questionFor

/-! ### Dialogue controller (`app.py` lines 195-255) -/

/-- Per-conversation chainlit session state: the `user_info` dict, the
`pending_fields` list, and the `general_mode` flag (absent keys default
to `{}` / `[]` / `False` at their read sites in the source). -/
structure Session where
  user_info : Fields := {}
  pending_fields : List String := []
  general_mode : Bool := false
deriving DecidableEq

/-- The observable outcome of one turn of `handle`: which branch answered
and, where a backend is involved, with what. -/
inductive Action where
  | toggleConfirm : Action
  | generalChat : String → Action
  | recallEmpty : Action
  | recallDump : Action
  | askMissing : List String → Action
  | astrology : Fields → String → Action
  | generalFallback : String → Action
deriving DecidableEq

/-- `app.py` lines 201-255: the `handle` turn.  Returns the session after
the turn together with the branch taken.  The source's local variables
`user_input`, `updated`, `still_missing` and `missing` are inlined (their
defining expressions are pure). -/
def handle (env : Env) (msg : String) (s : Session) : Session × Action :=
  if is_general_mode_request (stripStr msg) then
    ({ s with general_mode := true }, Action.toggleConfirm)
  else if s.general_mode then
    (s, Action.generalChat (stripStr msg))
  else if strContains (stripStr msg) "기억된 정보" ||
      strContains (stripStr msg) "기억한 출생 정보" then
    (s, if fieldsEmpty s.user_info then Action.recallEmpty else Action.recallDump)
  else if is_short_response (stripStr msg) && !s.pending_fields.isEmpty then
    if (check_missing_fields (parse_and_store_user_info env (stripStr msg) s.user_info)).isEmpty then
      ({ s with user_info := parse_and_store_user_info env (stripStr msg) s.user_info,
                pending_fields := [] },
       Action.astrology (parse_and_store_user_info env (stripStr msg) s.user_info) (stripStr msg))
    else
      ({ s with user_info := parse_and_store_user_info env (stripStr msg) s.user_info,
                pending_fields := check_missing_fields (parse_and_store_user_info env (stripStr msg) s.user_info) },
       Action.askMissing (check_missing_fields (parse_and_store_user_info env (stripStr msg) s.user_info)))
  else if !is_astrology_query (stripStr msg) && !is_rasi_analysis_request (stripStr msg) then
    (s, Action.generalFallback (stripStr msg))
  else
    if (check_missing_fields (parse_and_store_user_info env (stripStr msg) s.user_info)).isEmpty then
      ({ s with user_info := parse_and_store_user_info env (stripStr msg) s.user_info,
                pending_fields := [] },
       Action.astrology (parse_and_store_user_info env (stripStr msg) s.user_info) (stripStr msg))
    else
      ({ s with user_info := parse_and_store_user_info env (stripStr msg) s.user_info,
                pending_fields := check_missing_fields (parse_and_store_user_info env (stripStr msg) s.user_info) },
       Action.askMissing (check_missing_fields (parse_and_store_user_info env (stripStr msg) s.user_info)))

/-- The session created by `start_chat` (`app.py` lines 195-199). -/
def initSession : Session := {}

/-- A whole conversation: fold `handle` over the incoming messages. -/
def runTurns (env : Env) (s : Session) : List String → Session
  | [] => s
  | m :: rest => runTurns env (handle env m s).1 rest

/-! ### Predicates taken from the specification text (for the datetime
format claim) -/

/-- From the spec's words: the committed `datetime` string has the digit
shape of `YYYY-MM-DDTHH:MM:00+09:00` — four digits, hyphen, two digits,
hyphen, two digits, `T`, two digits, colon, two digits, literal
`:00+09:00`. -/
def digitShapeDatetime (s : String) : Bool :=
  match s.data with
  | a :: b :: c :: d :: s1 :: e :: f :: s2 :: g :: h :: t :: i :: j :: c1 :: k :: l :: rest =>
    isDigitCh a && isDigitCh b && isDigitCh c && isDigitCh d && (s1 == '-') &&
    isDigitCh e && isDigitCh f && (s2 == '-') && isDigitCh g && isDigitCh h &&
    (t == 'T') && isDigitCh i && isDigitCh j && (c1 == ':') && isDigitCh k && isDigitCh l &&
    (rest == [':', '0', '0', '+', '0', '9', ':', '0', '0'])
  | _ => false

/-- Gregorian leap-year rule, for the claim's notion of a valid calendar
date. -/
def isLeapYear (y : Nat) : Bool :=
  (y % 4 == 0 && y % 100 != 0) || y % 400 == 0

/-- Days in a month of the Gregorian calendar. -/
def daysInMonth (y m : Nat) : Nat :=
  if m = 2 then (if isLeapYear y then 29 else 28)
  else if m = 4 ∨ m = 6 ∨ m = 9 ∨ m = 11 then 30
  else 31

/-- Modelled from the spec claim: the committed `datetime` string has the
exact shape `YYYY-MM-DDTHH:MM:00+09:00` with a valid calendar date and a
valid 24-hour time. -/
def specValidDatetime (s : String) : Bool :=
  digitShapeDatetime s &&
  (match s.data with
   | a :: b :: c :: d :: _ :: e :: f :: _ :: g :: h :: _ :: i :: j :: _ :: k :: l :: _ =>
     (let year := ((digitVal a * 10 + digitVal b) * 10 + digitVal c) * 10 + digitVal d
      let month := digitVal e * 10 + digitVal f
      let day := digitVal g * 10 + digitVal h
      let hour := digitVal i * 10 + digitVal j
      let minute := digitVal k * 10 + digitVal l
      decide (1 ≤ month) && decide (month ≤ 12) &&
      decide (1 ≤ day) && decide (day ≤ daysInMonth year month) &&
      decide (hour ≤ 23) && decide (minute ≤ 59))
   | _ => false)

/-- A message that is exactly a well-formed date of the claimed shape:
the numerals of `y`, `m`, `d` joined with 년, 월, 일 (spec §8 scenario). -/
def msgOfDate (y m d : Nat) : String :=
  natRepr y ++ "년 " ++ natRepr m ++ "월 " ++ natRepr d ++ "일"

/-! ## Generic helper lemmas -/

theorem strDataEq {a b : String} (h : a.data = b.data) : a = b := by
  cases a; cases b; exact congrArg String.mk h

theorem strData_append (a b : String) : (a ++ b).data = a.data ++ b.data := by
  cases a; cases b; rfl

theorem fieldHas_datetime (p : Fields) : fieldHas p "datetime" = p.datetime.isSome := rfl

theorem fieldHas_place (p : Fields) : fieldHas p "place" = p.place.isSome := rfl

theorem fieldHas_coordinates (p : Fields) : fieldHas p "coordinates" = p.coordinates.isSome := rfl

theorem fieldHas_usergender (p : Fields) : fieldHas p "usergender" = p.usergender.isSome := rfl

/-! ## C5: missing-field validator -/

/-- C5: for every fields mapping, `check_missing_fields` returns exactly
the prompt strings of the required keys absent from the mapping, in the
fixed order datetime, place, coordinates, usergender, and returns the
empty list iff all four required keys are present. -/
theorem C5_missing_field_prompts (payload : Fields) :
    check_missing_fields payload =
      ((if payload.datetime.isSome then ([] : List String)
        else ["⏰ 태어난 날짜와 시간을 알려주세요."]) ++
       (if payload.place.isSome then ([] : List String)
        else ["📍 태어난 지역을 알려주세요."]) ++
       (if payload.coordinates.isSome then ([] : List String)
        else ["🌐 출생지 정보를 더 정확히 알려주세요."]) ++
       (if payload.usergender.isSome then ([] : List String)
        else ["👤 성별을 알려주세요. (남성/여성)"])) ∧
    (check_missing_fields payload = [] ↔
      (payload.datetime.isSome = true ∧ payload.place.isSome = true ∧
       payload.coordinates.isSome = true ∧ payload.usergender.isSome = true)) := by
  obtain ⟨dt, pl, co, ug, bt, gd⟩ := payload
  cases dt <;> cases pl <;> cases co <;> cases ug <;>
    simp [check_missing_fields, requiredFields, List.filter_cons,
      fieldHas_datetime, fieldHas_place, fieldHas_coordinates, fieldHas_usergender,
      questionFor]

/-- C5 witness: on the empty mapping all four prompts are returned, in
the fixed order. -/
theorem C5_witness :
    check_missing_fields emptyFields =
      ["⏰ 태어난 날짜와 시간을 알려주세요.", "📍 태어난 지역을 알려주세요.",
       "🌐 출생지 정보를 더 정확히 알려주세요.", "👤 성별을 알려주세요. (남성/여성)"] := by
  simpa using (C5_missing_field_prompts emptyFields).1

/-! ## C8: geocoding adapter -/

/-- C8: the geocoding adapter returns `lat,lon` of the first result row on
success and the fixed fallback string on a raised lookup (`none`) or an
empty result array; it is a total function of the lookup outcome, so it
never propagates a failure. -/
theorem C8_geocode_fallback (lookup : Option (List GeoResult)) :
    (∀ r rest, lookup = some (r :: rest) →
      get_coordinates lookup = r.lat ++ "," ++ r.lon) ∧
    (lookup = none → get_coordinates lookup = "35.2721355,128.8452281") ∧
    (lookup = some [] → get_coordinates lookup = "35.2721355,128.8452281") := by
  refine ⟨?_, ?_, ?_⟩
  · intro r rest h; subst h; rfl
  · intro h; subst h; rfl
  · intro h; subst h; rfl

/-- C8 witness: concrete success, network-failure, and empty-result
lookups. -/
theorem C8_witness :
    get_coordinates (some [⟨"35.1", "129.0"⟩]) = "35.1,129.0" ∧
    get_coordinates none = "35.2721355,128.8452281" ∧
    get_coordinates (some []) = "35.2721355,128.8452281" :=
  ⟨(C8_geocode_fallback (some [⟨"35.1", "129.0"⟩])).1 ⟨"35.1", "129.0"⟩ [] rfl,
   (C8_geocode_fallback none).2.1 rfl,
   (C8_geocode_fallback (some [])).2.2 rfl⟩

/-! ## C10: lunar calendar type is sticky -/

/-- C10: if the session's `birthdaytype` is 음력, the merged session's
`birthdaytype` is still 음력 for every message, since the calendar-type
extraction only tests for the substring 음력. -/
theorem C10_lunar_sticky (env : Env) (input : String) (session : Fields)
    (h : session.birthdaytype = some "음력") :
    (parse_and_store_user_info env input session).birthdaytype = some "음력" := by
  unfold parse_and_store_user_info
  rcases hd : dateSearch input.data with _ | ⟨y, m, d⟩ <;>
  rcases hp : extract_place input with _ | pl <;>
  rcases hg : extract_gender input with _ | g <;>
    simp [hd, hp, hg, h]

/-- C10 witness: a message explicitly containing 양력 does not revert a
stored 음력 value. -/
theorem C10_witness :
    (parse_and_store_user_info env0 "양력이야"
      { birthdaytype := some "음력" }).birthdaytype = some "음력" :=
  C10_lunar_sticky env0 "양력이야" { birthdaytype := some "음력" } rfl

/-! ## C1: general-mode short circuit -/

/-- C1 counterexample: with `generalMode` already true, a message
containing a toggle phrase is handled by the toggle branch — the
toggle-phrase check runs first — so the general-chat backend is *not*
invoked with the raw message, contradicting the claim as stated. -/
theorem C1_counterexample :
    ({ general_mode := true } : Session).general_mode = true ∧
    (handle env0 "일반으로 해줘" { general_mode := true }).2 = Action.toggleConfirm ∧
    Action.toggleConfirm ≠ Action.generalChat (stripStr "일반으로 해줘") := by
  exact ⟨rfl, by decide, by decide⟩

/-- C1 (amended): for every turn in which `generalMode` is true and the
message contains no toggle phrase, the controller invokes the
general-chat backend directly with the (stripped) message, the session is
completely unchanged, and no other branch runs. -/
theorem C1_general_mode_short_circuit (env : Env) (msg : String) (s : Session)
    (hmode : s.general_mode = true)
    (htoggle : is_general_mode_request (stripStr msg) = false) :
    handle env msg s = (s, Action.generalChat (stripStr msg)) := by
  unfold handle
  simp [htoggle, hmode]

/-- C1 witness: a concrete general-mode turn that goes straight to the
general-chat backend and leaves the session untouched. -/
theorem C1_witness :
    handle env0 "안녕하세요" { general_mode := true } =
      ({ general_mode := true }, Action.generalChat (stripStr "안녕하세요")) :=
  C1_general_mode_short_circuit env0 "안녕하세요" { general_mode := true } rfl (by decide)

/-! ## C6: field-merge frame conditions -/

/-- C6: the merge preserves every field whose extractor found nothing (a
time match without a date match included, since the date branch is the
only writer of `datetime`), recomputes `birthdaytype` and
`gochradatetime` on every turn, and never removes a key. -/
theorem C6_merge_frame (env : Env) (input : String) (session : Fields) :
    (dateSearch input.data = none →
      (parse_and_store_user_info env input session).datetime = session.datetime) ∧
    (extract_place input = none →
      (parse_and_store_user_info env input session).place = session.place ∧
      (parse_and_store_user_info env input session).coordinates = session.coordinates) ∧
    (extract_gender input = none →
      (parse_and_store_user_info env input session).usergender = session.usergender) ∧
    (parse_and_store_user_info env input session).birthdaytype =
      some (if strContains input "음력" then "음력" else session.birthdaytype.getD "양력") ∧
    (parse_and_store_user_info env input session).gochradatetime =
      some (resolve_gochra_datetime env.clock input) ∧
    (session.datetime.isSome = true →
      (parse_and_store_user_info env input session).datetime.isSome = true) ∧
    (session.place.isSome = true →
      (parse_and_store_user_info env input session).place.isSome = true) ∧
    (session.coordinates.isSome = true →
      (parse_and_store_user_info env input session).coordinates.isSome = true) ∧
    (session.usergender.isSome = true →
      (parse_and_store_user_info env input session).usergender.isSome = true) ∧
    (parse_and_store_user_info env input session).birthdaytype.isSome = true ∧
    (parse_and_store_user_info env input session).gochradatetime.isSome = true := by
  unfold parse_and_store_user_info
  rcases hd : dateSearch input.data with _ | ⟨y, m, d⟩ <;>
  rcases hp : extract_place input with _ | pl <;>
  rcases hg : extract_gender input with _ | g <;>
    simp [hd, hp, hg]

/-- C6 witness: a message matching no extractor preserves the stored
date and gender, leaves place and coordinates absent, and recomputes the
two always-written fields. -/
theorem C6_witness :
    (parse_and_store_user_info env0 "하이"
      ⟨some "D", none, none, some "여성", some "양력", none⟩).datetime = some "D" ∧
    (parse_and_store_user_info env0 "하이"
      ⟨some "D", none, none, some "여성", some "양력", none⟩).place = none ∧
    (parse_and_store_user_info env0 "하이"
      ⟨some "D", none, none, some "여성", some "양력", none⟩).coordinates = none ∧
    (parse_and_store_user_info env0 "하이"
      ⟨some "D", none, none, some "여성", some "양력", none⟩).usergender = some "여성" ∧
    (parse_and_store_user_info env0 "하이"
      ⟨some "D", none, none, some "여성", some "양력", none⟩).birthdaytype = some "양력" ∧
    (parse_and_store_user_info env0 "하이"
      ⟨some "D", none, none, some "여성", some "양력", none⟩).gochradatetime =
        some (resolve_gochra_datetime env0.clock "하이") := by
  have h := C6_merge_frame env0 "하이" ⟨some "D", none, none, some "여성", some "양력", none⟩
  exact ⟨h.1 (by decide), (h.2.1 (by decide)).1, (h.2.1 (by decide)).2,
    h.2.2.1 (by decide), h.2.2.2.1, h.2.2.2.2.1⟩

/-! ## C7: the general-mode flag is set by toggle phrases and is sticky -/

/-- A turn whose stripped message contains a toggle phrase ends with
`general_mode` true. -/
theorem handle_toggle_sets (env : Env) (m : String) (s : Session)
    (h : is_general_mode_request (stripStr m) = true) :
    (handle env m s).1.general_mode = true := by
  unfold handle
  simp [h]

/-- No branch of `handle` ever sets `general_mode` back to false. -/
theorem handle_keeps_general (env : Env) (m : String) (s : Session)
    (h : s.general_mode = true) :
    (handle env m s).1.general_mode = true := by
  unfold handle
  by_cases ht : is_general_mode_request (stripStr m) <;> simp [ht, h]

/-- Once `general_mode` is true it stays true over any message sequence. -/
theorem runTurns_keeps_general (env : Env) (msgs : List String) (s : Session)
    (h : s.general_mode = true) : (runTurns env s msgs).general_mode = true := by
  induction msgs generalizing s with
  | nil => exact h
  | cons m rest ih => exact ih _ (handle_keeps_general env m s h)

/-- C7: in every conversation, any turn containing a toggle phrase makes
`general_mode` true, and it remains true on every subsequent turn — no
message sequence resets it. -/
theorem C7_general_mode_sticky (env : Env) (s : Session) (pre : List String)
    (m : String) (post : List String)
    (h : is_general_mode_request (stripStr m) = true) :
    (runTurns env s (pre ++ m :: post)).general_mode = true := by
  induction pre generalizing s with
  | nil => exact runTurns_keeps_general env post _ (handle_toggle_sets env m s h)
  | cons p rest ih => exact ih ((handle env p s).1)

/-- C7 witness: a concrete conversation toggling general mode mid-way,
followed by a further turn. -/
theorem C7_witness :
    (runTurns env0 initSession
      (["안녕하세요"] ++ "일반으로 해줘" :: ["오늘 뭐해"])).general_mode = true :=
  C7_general_mode_sticky env0 initSession ["안녕하세요"] "일반으로 해줘" ["오늘 뭐해"] (by decide)

/-! ## C9: place and coordinates are only ever set together -/

/-- The extraction merge writes `place` and `coordinates` together, so it
preserves the key-presence equivalence between them. -/
theorem parse_keeps_place_coord (env : Env) (input : String) (session : Fields)
    (h : session.place.isSome = session.coordinates.isSome) :
    (parse_and_store_user_info env input session).place.isSome =
      (parse_and_store_user_info env input session).coordinates.isSome := by
  unfold parse_and_store_user_info
  rcases hd : dateSearch input.data with _ | ⟨y, m, d⟩ <;>
  rcases hp : extract_place input with _ | pl <;>
  rcases hg : extract_gender input with _ | g <;>
    simp [hd, hp, hg, h]

/-- Each turn's resulting `user_info` is either the previous one or the
extraction merge applied to it. -/
theorem handle_user_info (env : Env) (m : String) (s : Session) :
    (handle env m s).1.user_info = s.user_info ∨
    (handle env m s).1.user_info =
      parse_and_store_user_info env (stripStr m) s.user_info := by
  unfold handle
  split
  · left; rfl
  · split
    · left; rfl
    · split
      · left; rfl
      · split
        · split
          · right; rfl
          · right; rfl
        · split
          · left; rfl
          · split
            · right; rfl
            · right; rfl

/-- One turn preserves the place/coordinates key-presence equivalence. -/
theorem handle_keeps_place_coord (env : Env) (m : String) (s : Session)
    (h : s.user_info.place.isSome = s.user_info.coordinates.isSome) :
    (handle env m s).1.user_info.place.isSome =
      (handle env m s).1.user_info.coordinates.isSome := by
  rcases handle_user_info env m s with he | he <;> rw [he]
  · exact h
  · exact parse_keeps_place_coord env (stripStr m) s.user_info h

/-- In a mapping where place and coordinates are present together, the
coordinates prompt never occurs in the validator output without the place
prompt. -/
theorem cmf_coord_prompt_needs_place (f : Fields)
    (h : f.place.isSome = f.coordinates.isSome)
    (hc : "🌐 출생지 정보를 더 정확히 알려주세요." ∈ check_missing_fields f) :
    "📍 태어난 지역을 알려주세요." ∈ check_missing_fields f := by
  have h1 : ("🌐 출생지 정보를 더 정확히 알려주세요." : String) ≠
      "⏰ 태어난 날짜와 시간을 알려주세요." := by decide
  have h2 : ("🌐 출생지 정보를 더 정확히 알려주세요." : String) ≠
      "📍 태어난 지역을 알려주세요." := by decide
  have h3 : ("🌐 출생지 정보를 더 정확히 알려주세요." : String) ≠
      "👤 성별을 알려주세요. (남성/여성)" := by decide
  obtain ⟨dt, pl, co, ug, bt, gd⟩ := f
  cases dt <;> cases pl <;> cases co <;> cases ug <;>
    simp_all [check_missing_fields, requiredFields, List.filter_cons,
      fieldHas_datetime, fieldHas_place, fieldHas_coordinates, fieldHas_usergender,
      questionFor]

/-- C9: in every session reachable from the empty initial session, the
`place` key is present iff the `coordinates` key is, and consequently the
coordinates prompt never appears in the validator output without the
place prompt. -/
theorem C9_place_coordinates_iff (env : Env) (msgs : List String) :
    ((runTurns env initSession msgs).user_info.place.isSome =
      (runTurns env initSession msgs).user_info.coordinates.isSome) ∧
    ("🌐 출생지 정보를 더 정확히 알려주세요." ∈
        check_missing_fields (runTurns env initSession msgs).user_info →
      "📍 태어난 지역을 알려주세요." ∈
        check_missing_fields (runTurns env initSession msgs).user_info) := by
  have hrun : ∀ (rest : List String) (s : Session),
      s.user_info.place.isSome = s.user_info.coordinates.isSome →
      (runTurns env s rest).user_info.place.isSome =
        (runTurns env s rest).user_info.coordinates.isSome := by
    intro rest
    induction rest with
    | nil => intro s hs; exact hs
    | cons m t ih => intro s hs; exact ih _ (handle_keeps_place_coord env m s hs)
  have hinv := hrun msgs initSession rfl
  exact ⟨hinv, cmf_coord_prompt_needs_place _ hinv⟩

/-- C9 witness: after a concrete astrology query on an empty session both
prompts are pending, the coordinates one only alongside the place one. -/
theorem C9_witness :
    "📍 태어난 지역을 알려주세요." ∈
      check_missing_fields (runTurns env0 initSession ["사주 알려줘"]).user_info :=
  (C9_place_coordinates_iff env0 ["사주 알려줘"]).2 (by decide)

/-! ## Digit-shape lemmas about the date/time matchers -/

theorem isDigitCh_bounds {c : Char} (h : isDigitCh c = true) :
    48 ≤ c.toNat ∧ c.toNat ≤ 57 := by
  unfold isDigitCh at h
  simp at h
  exact h

theorem digitVal_le9 {c : Char} (h : isDigitCh c = true) : digitVal c ≤ 9 := by
  obtain ⟨h1, h2⟩ := isDigitCh_bounds h
  unfold digitVal
  omega

theorem strToNat_le_99 (s : String) (hlen : s.data.length ≤ 2)
    (hd : ∀ c ∈ s.data, isDigitCh c = true) : strToNat s ≤ 99 := by
  rcases s with ⟨l⟩
  rcases l with _ | ⟨a, _ | ⟨b, _ | ⟨c, t⟩⟩⟩
  · simp [strToNat]
  · have ha := digitVal_le9 (hd a (by simp))
    simp [strToNat]
    omega
  · have ha := digitVal_le9 (hd a (by simp))
    have hb := digitVal_le9 (hd b (by simp))
    simp [strToNat, List.foldl]
    omega
  · simp at hlen

theorem takeExact_spec (p : Char → Bool) :
    ∀ (n : Nat) (cs t r : List Char), takeExact p n cs = some (t, r) →
      t.length = n ∧ ∀ c ∈ t, p c = true := by
  intro n
  induction n with
  | zero =>
    intro cs t r h
    rw [takeExact] at h
    injection h with h'
    injection h' with h1 h2
    subst h1
    exact ⟨rfl, by simp⟩
  | succ n ih =>
    intro cs t r h
    cases cs with
    | nil => simp [takeExact] at h
    | cons c cs' =>
      simp only [takeExact] at h
      by_cases hpc : p c = true
      · rw [if_pos hpc] at h
        cases hrec : takeExact p n cs' with
        | none => simp only [hrec] at h; exact absurd h (by simp)
        | some pr =>
          obtain ⟨t', r'⟩ := pr
          simp only [hrec] at h
          simp at h
          obtain ⟨h1, _⟩ := h
          obtain ⟨hl, hall⟩ := ih cs' t' r' hrec
          subst h1
          refine ⟨by simp [hl], ?_⟩
          intro x hx
          rcases List.mem_cons.mp hx with hx | hx
          · subst hx; exact hpc
          · exact hall x hx
      · rw [if_neg hpc] at h
        exact absurd h (by simp)

theorem len4_explicit {l : List Char} (h : l.length = 4) :
    ∃ a b c d, l = [a, b, c, d] := by
  rcases l with _ | ⟨a, _ | ⟨b, _ | ⟨c, _ | ⟨d, _ | ⟨e, t⟩⟩⟩⟩⟩ <;> simp_all

theorem monthThen_digits {cs r : List Char} {ms : String}
    (h : monthThen cs = some (ms, r)) :
    ms.data.length ≤ 2 ∧ ∀ c ∈ ms.data, isDigitCh c = true := by
  rcases cs with _ | ⟨c1, _ | ⟨c2, rest⟩⟩ <;> simp only [monthThen] at h
  · exact absurd h (by simp)
  · exact absurd h (by simp)
  · by_cases h1 : isDigitCh c1 = true
    · rw [if_pos h1] at h
      by_cases h2 : isDigitCh c2 = true
      · rw [if_pos h2] at h
        cases hd1 : dropClass1Plus isSep2 rest with
        | some r' =>
          simp only [hd1] at h
          simp at h
          obtain ⟨hm, _⟩ := h
          subst hm
          refine ⟨by simp, ?_⟩
          intro c hc
          simp at hc
          rcases hc with rfl | rfl
          · exact h1
          · exact h2
        | none =>
          simp only [hd1] at h
          cases hd2 : dropClass1Plus isSep2 (c2 :: rest) with
          | some r' =>
            simp only [hd2] at h
            simp at h
            obtain ⟨hm, _⟩ := h
            subst hm
            refine ⟨by simp, ?_⟩
            intro c hc
            simp at hc
            subst hc
            exact h1
          | none => simp only [hd2] at h; exact absurd h (by simp)
      · rw [if_neg h2] at h
        cases hd2 : dropClass1Plus isSep2 (c2 :: rest) with
        | some r' =>
          simp only [hd2] at h
          simp at h
          obtain ⟨hm, _⟩ := h
          subst hm
          refine ⟨by simp, ?_⟩
          intro c hc
          simp at hc
          subst hc
          exact h1
        | none => simp only [hd2] at h; exact absurd h (by simp)
    · rw [if_neg h1] at h
      exact absurd h (by simp)

theorem takeUpTo2Digits_digits {cs : List Char} {ds : String}
    (h : takeUpTo2Digits cs = some ds) :
    ds.data.length ≤ 2 ∧ ∀ c ∈ ds.data, isDigitCh c = true := by
  rcases cs with _ | ⟨c1, _ | ⟨c2, rest⟩⟩ <;> simp only [takeUpTo2Digits] at h
  · exact absurd h (by simp)
  · by_cases h1 : isDigitCh c1 = true
    · rw [if_pos h1] at h
      simp at h
      subst h
      refine ⟨by simp, ?_⟩
      intro c hc
      simp at hc
      subst hc
      exact h1
    · rw [if_neg h1] at h
      exact absurd h (by simp)
  · by_cases h1 : isDigitCh c1 = true
    · rw [if_pos h1] at h
      by_cases h2 : isDigitCh c2 = true
      · rw [if_pos h2] at h
        simp at h
        subst h
        refine ⟨by simp, ?_⟩
        intro c hc
        simp at hc
        rcases hc with rfl | rfl
        · exact h1
        · exact h2
      · rw [if_neg h2] at h
        simp at h
        subst h
        refine ⟨by simp, ?_⟩
        intro c hc
        simp at hc
        subst hc
        exact h1
    · rw [if_neg h1] at h
      exact absurd h (by simp)

theorem matchDateAt_digits {cs : List Char} {y m d : String}
    (h : matchDateAt cs = some (y, m, d)) :
    (y.data.length = 4 ∧ ∀ c ∈ y.data, isDigitCh c = true) ∧
    (m.data.length ≤ 2 ∧ ∀ c ∈ m.data, isDigitCh c = true) ∧
    (d.data.length ≤ 2 ∧ ∀ c ∈ d.data, isDigitCh c = true) := by
  unfold matchDateAt at h
  cases h4 : takeExact isDigitCh 4 cs with
  | none => simp only [h4] at h; exact absurd h (by simp)
  | some pr =>
    obtain ⟨ys, r1⟩ := pr
    simp only [h4] at h
    cases hs1 : dropClass1Plus isSep1 r1 with
    | none => simp only [hs1] at h; exact absurd h (by simp)
    | some r2 =>
      simp only [hs1] at h
      cases hm : monthThen r2 with
      | none => simp only [hm] at h; exact absurd h (by simp)
      | some pr2 =>
        obtain ⟨ms, r3⟩ := pr2
        simp only [hm] at h
        cases hdd : takeUpTo2Digits r3 with
        | none => simp only [hdd] at h; exact absurd h (by simp)
        | some ds =>
          simp only [hdd] at h
          simp at h
          obtain ⟨hy, hm2, hd2⟩ := h
          subst hy; subst hm2; subst hd2
          exact ⟨takeExact_spec isDigitCh 4 cs ys r1 h4,
                 monthThen_digits hm, takeUpTo2Digits_digits hdd⟩

theorem dateSearch_digits {cs : List Char} {y m d : String}
    (h : dateSearch cs = some (y, m, d)) :
    (y.data.length = 4 ∧ ∀ c ∈ y.data, isDigitCh c = true) ∧
    (m.data.length ≤ 2 ∧ ∀ c ∈ m.data, isDigitCh c = true) ∧
    (d.data.length ≤ 2 ∧ ∀ c ∈ d.data, isDigitCh c = true) := by
  induction cs with
  | nil => exact absurd h (by simp [dateSearch])
  | cons c t ih =>
    rw [dateSearch] at h
    cases hm : matchDateAt (c :: t) with
    | some res =>
      simp only [hm] at h
      simp at h
      subst h
      exact matchDateAt_digits hm
    | none =>
      simp only [hm] at h
      exact ih h

theorem hourThen_digits {cs r : List Char} {h : String}
    (hh : hourThen cs = some (h, r)) :
    h.data.length ≤ 2 ∧ ∀ c ∈ h.data, isDigitCh c = true := by
  rcases cs with _ | ⟨c1, _ | ⟨c2, _ | ⟨c3, rest⟩⟩⟩ <;> simp only [hourThen] at hh
  · exact absurd hh (by simp)
  · exact absurd hh (by simp)
  · by_cases hc : (isDigitCh c1 && (c2 == '시')) = true
    · rw [if_pos hc] at hh
      simp at hh hc
      obtain ⟨hh1, _⟩ := hh
      subst hh1
      refine ⟨by simp, ?_⟩
      intro c hcm
      simp at hcm
      subst hcm
      exact hc.1
    · rw [if_neg hc] at hh
      exact absurd hh (by simp)
  · by_cases hc : (isDigitCh c1 && isDigitCh c2 && (c3 == '시')) = true
    · rw [if_pos hc] at hh
      simp at hh hc
      obtain ⟨hh1, _⟩ := hh
      subst hh1
      refine ⟨by simp, ?_⟩
      intro c hcm
      simp at hcm
      rcases hcm with rfl | rfl
      · exact hc.1.1
      · exact hc.1.2
    · rw [if_neg hc] at hh
      by_cases hc2 : (isDigitCh c1 && (c2 == '시')) = true
      · rw [if_pos hc2] at hh
        simp at hh hc2
        obtain ⟨hh1, _⟩ := hh
        subst hh1
        refine ⟨by simp, ?_⟩
        intro c hcm
        simp at hcm
        subst hcm
        exact hc2.1
      · rw [if_neg hc2] at hh
        exact absurd hh (by simp)

theorem minuteTry_digits {cs : List Char} {mm : String}
    (h : minuteTry cs = some mm) :
    mm.data.length ≤ 2 ∧ ∀ c ∈ mm.data, isDigitCh c = true := by
  unfold minuteTry at h
  rcases hr : cs.dropWhile isSpaceCh with _ | ⟨c1, _ | ⟨c2, _ | ⟨c3, rest⟩⟩⟩ <;>
    simp only [hr] at h
  · exact absurd h (by simp)
  · exact absurd h (by simp)
  · by_cases hc : (isDigitCh c1 && (c2 == '분')) = true
    · rw [if_pos hc] at h
      simp at h hc
      subst h
      refine ⟨by simp, ?_⟩
      intro c hcm
      simp at hcm
      subst hcm
      exact hc.1
    · rw [if_neg hc] at h
      exact absurd h (by simp)
  · by_cases hc : (isDigitCh c1 && isDigitCh c2 && (c3 == '분')) = true
    · rw [if_pos hc] at h
      simp at h hc
      subst h
      refine ⟨by simp, ?_⟩
      intro c hcm
      simp at hcm
      rcases hcm with rfl | rfl
      · exact hc.1.1
      · exact hc.1.2
    · rw [if_neg hc] at h
      by_cases hc2 : (isDigitCh c1 && (c2 == '분')) = true
      · rw [if_pos hc2] at h
        simp at h hc2
        subst h
        refine ⟨by simp, ?_⟩
        intro c hcm
        simp at hcm
        subst hcm
        exact hc2.1
      · rw [if_neg hc2] at h
        exact absurd h (by simp)

theorem timeCore_digits {cs : List Char} {h : String} {mm : Option String}
    (ht : timeCore cs = some (h, mm)) :
    (h.data.length ≤ 2 ∧ ∀ c ∈ h.data, isDigitCh c = true) ∧
    (∀ s, mm = some s → s.data.length ≤ 2 ∧ ∀ c ∈ s.data, isDigitCh c = true) := by
  unfold timeCore at ht
  cases hh : hourThen (cs.dropWhile isSpaceCh) with
  | none => simp only [hh] at ht; exact absurd ht (by simp)
  | some pr =>
    obtain ⟨h', r⟩ := pr
    simp only [hh] at ht
    simp at ht
    obtain ⟨ht1, ht2⟩ := ht
    subst ht1
    refine ⟨hourThen_digits hh, ?_⟩
    intro s hs
    rw [← ht2] at hs
    exact minuteTry_digits hs

theorem matchTimeNoAmpm_digits {cs : List Char} {ampm : Option String}
    {h : String} {mm : Option String}
    (ht : matchTimeNoAmpm cs = some (ampm, h, mm)) :
    (h.data.length ≤ 2 ∧ ∀ c ∈ h.data, isDigitCh c = true) ∧
    (∀ s, mm = some s → s.data.length ≤ 2 ∧ ∀ c ∈ s.data, isDigitCh c = true) := by
  unfold matchTimeNoAmpm at ht
  cases hc : timeCore cs with
  | none => simp only [hc] at ht; exact absurd ht (by simp)
  | some pr =>
    obtain ⟨h', mm'⟩ := pr
    simp only [hc] at ht
    simp at ht
    obtain ⟨_, ht2, ht3⟩ := ht
    subst ht2; subst ht3
    exact timeCore_digits hc

theorem matchTimeAt_digits {cs : List Char} {ampm : Option String}
    {h : String} {mm : Option String}
    (ht : matchTimeAt cs = some (ampm, h, mm)) :
    (h.data.length ≤ 2 ∧ ∀ c ∈ h.data, isDigitCh c = true) ∧
    (∀ s, mm = some s → s.data.length ≤ 2 ∧ ∀ c ∈ s.data, isDigitCh c = true) := by
  unfold matchTimeAt at ht
  by_cases h1 : ("오전".data).isPrefixOf cs = true
  · rw [if_pos h1] at ht
    cases hc : timeCore (cs.drop 2) with
    | none => simp only [hc] at ht; exact matchTimeNoAmpm_digits ht
    | some pr =>
      obtain ⟨h', mm'⟩ := pr
      simp only [hc] at ht
      simp at ht
      obtain ⟨_, ht2, ht3⟩ := ht
      subst ht2; subst ht3
      exact timeCore_digits hc
  · rw [if_neg h1] at ht
    by_cases h2 : ("오후".data).isPrefixOf cs = true
    · rw [if_pos h2] at ht
      cases hc : timeCore (cs.drop 2) with
      | none => simp only [hc] at ht; exact matchTimeNoAmpm_digits ht
      | some pr =>
        obtain ⟨h', mm'⟩ := pr
        simp only [hc] at ht
        simp at ht
        obtain ⟨_, ht2, ht3⟩ := ht
        subst ht2; subst ht3
        exact timeCore_digits hc
    · rw [if_neg h2] at ht
      exact matchTimeNoAmpm_digits ht

theorem timeSearch_digits {cs : List Char} {ampm : Option String}
    {h : String} {mm : Option String}
    (ht : timeSearch cs = some (ampm, h, mm)) :
    (h.data.length ≤ 2 ∧ ∀ c ∈ h.data, isDigitCh c = true) ∧
    (∀ s, mm = some s → s.data.length ≤ 2 ∧ ∀ c ∈ s.data, isDigitCh c = true) := by
  induction cs with
  | nil => exact absurd ht (by simp [timeSearch])
  | cons c t ih =>
    rw [timeSearch] at ht
    cases hm : matchTimeAt (c :: t) with
    | some res =>
      simp only [hm] at ht
      simp at ht
      subst ht
      exact matchTimeAt_digits hm
    | none =>
      simp only [hm] at ht
      exact ih ht

/-! ## Shape of the formatted datetime string -/

theorem isDigitCh_digitChar {n : Nat} (h : n < 10) :
    isDigitCh (digitChar n) = true := by
  interval_cases n <;> decide

theorem natDigitsAux_small (fuel n : Nat) (hfn : n < fuel) (hn : n < 10) :
    natDigitsAux fuel n = [digitChar n] := by
  cases fuel with
  | zero => omega
  | succ f => simp [natDigitsAux, hn]

theorem fmt02_digits {n : Nat} (hn : n ≤ 99) :
    ∃ a b, (fmt02 n).data = [a, b] ∧ isDigitCh a = true ∧ isDigitCh b = true := by
  by_cases h10 : n < 10
  · refine ⟨'0', digitChar n, ?_, by decide, isDigitCh_digitChar h10⟩
    rw [fmt02, if_pos h10]
    rw [strData_append]
    unfold natRepr
    rw [natDigitsAux_small (n + 1) n (by omega) h10]
    rfl
  · refine ⟨digitChar (n / 10), digitChar (n % 10), ?_,
      isDigitCh_digitChar (by omega), isDigitCh_digitChar (by omega)⟩
    rw [fmt02, if_neg h10]
    unfold natRepr
    have hstep : natDigitsAux (n + 1) n =
        natDigitsAux n (n / 10) ++ [digitChar (n % 10)] := by
      simp [natDigitsAux, h10]
    rw [hstep, natDigitsAux_small n (n / 10) (by omega) (by omega)]
    rfl

theorem committedHour_le_99 (ampm : Option String) {h : String}
    (hlen : h.data.length ≤ 2) (hd : ∀ c ∈ h.data, isDigitCh c = true) :
    committedHour ampm h ≤ 99 := by
  unfold committedHour
  split
  · next hc => omega
  · exact strToNat_le_99 h hlen hd

theorem committedMinute_le_99 {mm : Option String}
    (hd : ∀ s, mm = some s → s.data.length ≤ 2 ∧ ∀ c ∈ s.data, isDigitCh c = true) :
    committedMinute mm ≤ 99 := by
  cases mm with
  | none => simp [committedMinute]
  | some s =>
    obtain ⟨h1, h2⟩ := hd s rfl
    simpa [committedMinute] using strToNat_le_99 s h1 h2

theorem digitShape_build (y M D H Mi : String)
    (hy : y.data.length = 4) (hyd : ∀ c ∈ y.data, isDigitCh c = true)
    (hM2 : ∃ a b, M.data = [a, b] ∧ isDigitCh a = true ∧ isDigitCh b = true)
    (hD2 : ∃ a b, D.data = [a, b] ∧ isDigitCh a = true ∧ isDigitCh b = true)
    (hH2 : ∃ a b, H.data = [a, b] ∧ isDigitCh a = true ∧ isDigitCh b = true)
    (hMi2 : ∃ a b, Mi.data = [a, b] ∧ isDigitCh a = true ∧ isDigitCh b = true) :
    digitShapeDatetime
      (y ++ "-" ++ M ++ "-" ++ D ++ "T" ++ H ++ ":" ++ Mi ++ ":00+09:00") = true := by
  obtain ⟨a, b, c, d, hy4⟩ := len4_explicit hy
  obtain ⟨e, f, hMd, he, hf⟩ := hM2
  obtain ⟨g, h, hDd, hg, hh⟩ := hD2
  obtain ⟨i, j, hHd, hi, hj⟩ := hH2
  obtain ⟨k, l, hMid, hk, hl⟩ := hMi2
  have ha : isDigitCh a = true := hyd a (by simp [hy4])
  have hb : isDigitCh b = true := hyd b (by simp [hy4])
  have hc : isDigitCh c = true := hyd c (by simp [hy4])
  have hd' : isDigitCh d = true := hyd d (by simp [hy4])
  unfold digitShapeDatetime
  simp only [strData_append, hy4, hMd, hDd, hHd, hMid]
  simp [ha, hb, hc, hd', he, hf, hg, hh, hi, hj, hk, hl]

/-! ## C2: shape of the committed datetime value -/

/-- C2 counterexample: the extractor happily commits month 13 and day 45,
so the committed value is not always a valid calendar date — the claim as
stated is false. -/
theorem C2_counterexample :
    (parse_and_store_user_info env0 "2024년 13월 45일" emptyFields).datetime =
      some "2024-13-45T12:00:00+09:00" ∧
    specValidDatetime "2024-13-45T12:00:00+09:00" = false := by
  exact ⟨by decide, by decide⟩

/-- C2 (amended): whenever the extractor commits a datetime value (i.e.
the field differs from a value merely inherited from the prior session),
the committed string has the digit shape `YYYY-MM-DDTHH:MM:00+09:00` —
four digits, two digits, two digits, two digits, two digits with fixed
punctuation, seconds `:00` and offset `+09:00` — but the numeric
components need not form a valid calendar date or 24-hour time. -/
theorem C2_digit_shape (env : Env) (input : String) (session : Fields) (s : String)
    (h : (parse_and_store_user_info env input session).datetime = some s) :
    session.datetime = some s ∨ digitShapeDatetime s = true := by
  unfold parse_and_store_user_info at h
  rcases hd : dateSearch input.data with _ | ⟨y, m, d⟩
  · left
    rcases hp : extract_place input with _ | pl <;>
    rcases hg : extract_gender input with _ | g <;>
      simp [hd, hp, hg] at h <;> exact h
  · right
    obtain ⟨⟨hy4, hyd⟩, ⟨hm2, hmd⟩, ⟨hd2, hdd⟩⟩ := dateSearch_digits hd
    have hM := fmt02_digits (strToNat_le_99 m hm2 hmd)
    have hD := fmt02_digits (strToNat_le_99 d hd2 hdd)
    rcases ht : timeSearch input.data with _ | ⟨ampm, hS, mm⟩
    · rcases hp : extract_place input with _ | pl <;>
      rcases hg : extract_gender input with _ | g <;>
        simp [hd, ht, hp, hg] at h <;>
        (subst h;
         exact digitShape_build y _ _ _ _ hy4 hyd hM hD
           (fmt02_digits (by norm_num)) (fmt02_digits (by norm_num)))
    · obtain ⟨⟨hhl, hhd⟩, hmm⟩ := timeSearch_digits ht
      have hH := fmt02_digits (committedHour_le_99 ampm hhl hhd)
      have hMi := fmt02_digits (committedMinute_le_99 hmm)
      rcases hp : extract_place input with _ | pl <;>
      rcases hg : extract_gender input with _ | g <;>
        simp [hd, ht, hp, hg] at h <;>
        (subst h;
         exact digitShape_build y _ _ _ _ hy4 hyd hM hD hH hMi)

/-- C2 witness: a concretely committed value, shown to carry the digit
shape through the amended theorem. -/
theorem C2_witness :
    digitShapeDatetime "1999-01-02T12:00:00+09:00" = true :=
  Or.resolve_left
    (C2_digit_shape env0 "1999년 1월 2일" emptyFields "1999-01-02T12:00:00+09:00"
      (by decide))
    (by decide)

/-! ## C3: AM/PM hour conversion -/

/-- C3: when both a date and a time match, the committed hour is the
parsed hour plus 12 exactly when the matched AM/PM group is 오후 and the
parsed hour is below 12; it is the parsed hour unchanged when the group
is 오전, when it is absent, and when it is 오후 with parsed hour 12 or
more — in particular 오후 with parsed hour 12 commits exactly hour 12. -/
theorem C3_pm_hour_conversion (env : Env) (input : String) (session : Fields)
    (y m d : String) (ampm : Option String) (h : String) (mm : Option String)
    (hdm : dateSearch input.data = some (y, m, d))
    (htm : timeSearch input.data = some (ampm, h, mm)) :
    (parse_and_store_user_info env input session).datetime =
      some (y ++ "-" ++ fmt02 (strToNat m) ++ "-" ++ fmt02 (strToNat d) ++
        "T" ++ fmt02 (committedHour ampm h) ++ ":" ++ fmt02 (committedMinute mm) ++
        ":00+09:00") ∧
    (ampm = some "오후" → strToNat h < 12 → committedHour ampm h = strToNat h + 12) ∧
    (ampm = some "오전" → committedHour ampm h = strToNat h) ∧
    (ampm = none → committedHour ampm h = strToNat h) ∧
    (ampm = some "오후" → 12 ≤ strToNat h → committedHour ampm h = strToNat h) ∧
    (ampm = some "오후" → strToNat h = 12 → committedHour ampm h = 12) := by
  refine ⟨?_, ?_, ?_, ?_, ?_, ?_⟩
  · rcases hp : extract_place input with _ | pl <;>
    rcases hg : extract_gender input with _ | g <;>
      simp [parse_and_store_user_info, hdm, htm, hp, hg]
  · intro h1 h2
    unfold committedHour
    rw [if_pos ⟨h1, h2⟩]
  · intro h1
    subst h1
    unfold committedHour
    rw [if_neg]
    rintro ⟨hc, -⟩
    exact absurd hc (by decide)
  · intro h1
    subst h1
    unfold committedHour
    rw [if_neg]
    rintro ⟨hc, -⟩
    exact absurd hc (by simp)
  · intro h1 h2
    unfold committedHour
    rw [if_neg]
    rintro ⟨-, hc⟩
    omega
  · intro h1 h2
    unfold committedHour
    rw [if_neg, h2]
    rintro ⟨-, hc⟩
    omega

/-- C3 witness: 오후 2시 on a full date commits hour 14, and 오후 with
hour 12 stays at 12. -/
theorem C3_witness :
    (parse_and_store_user_info env0 "1976년 4월 27일 오후 2시" emptyFields).datetime =
      some "1976-04-27T14:00:00+09:00" ∧
    committedHour (some "오후") "2" = strToNat "2" + 12 := by
  have h := C3_pm_hour_conversion env0 "1976년 4월 27일 오후 2시" emptyFields
    "1976" "4" "27" (some "오후") "2" none (by decide) (by decide)
  exact ⟨h.1, h.2.1 rfl (by decide)⟩

/-! ## The date regex on a literal well-formed date message -/

theorem toNat_digitChar {n : Nat} (h : n < 10) : (digitChar n).toNat = 48 + n := by
  interval_cases n <;> decide

theorem digitVal_digitChar {n : Nat} (h : n < 10) : digitVal (digitChar n) = n := by
  unfold digitVal
  rw [toNat_digitChar h]
  omega

theorem natDigitsAux_two (fuel n : Nat) (hfn : n < fuel) (h1 : 10 ≤ n) (h2 : n < 100) :
    natDigitsAux fuel n = [digitChar (n / 10), digitChar (n % 10)] := by
  cases fuel with
  | zero => omega
  | succ f =>
    simp only [natDigitsAux, if_neg (show ¬ n < 10 by omega)]
    rw [natDigitsAux_small f (n / 10) (by omega) (by omega)]
    rfl

theorem natDigitsAux_three (fuel n : Nat) (hfn : n < fuel) (h1 : 100 ≤ n) (h2 : n < 1000) :
    natDigitsAux fuel n =
      [digitChar (n / 100), digitChar (n / 10 % 10), digitChar (n % 10)] := by
  cases fuel with
  | zero => omega
  | succ f =>
    simp only [natDigitsAux, if_neg (show ¬ n < 10 by omega)]
    rw [natDigitsAux_two f (n / 10) (by omega) (by omega) (by omega)]
    have e1 : n / 10 / 10 = n / 100 := by
      rw [Nat.div_div_eq_div_mul]
    rw [e1]
    rfl

theorem natDigitsAux_four (fuel n : Nat) (hfn : n < fuel) (h1 : 1000 ≤ n) (h2 : n < 10000) :
    natDigitsAux fuel n =
      [digitChar (n / 1000), digitChar (n / 100 % 10),
       digitChar (n / 10 % 10), digitChar (n % 10)] := by
  cases fuel with
  | zero => omega
  | succ f =>
    simp only [natDigitsAux, if_neg (show ¬ n < 10 by omega)]
    rw [natDigitsAux_three f (n / 10) (by omega) (by omega) (by omega)]
    have e1 : n / 10 / 100 = n / 1000 := by
      rw [Nat.div_div_eq_div_mul]
    have e2 : n / 10 / 10 = n / 100 := by
      rw [Nat.div_div_eq_div_mul]
    rw [e1, e2]
    rfl

theorem natDigitsAux_all_digits : ∀ (fuel n : Nat),
    ∀ c ∈ natDigitsAux fuel n, isDigitCh c = true := by
  intro fuel
  induction fuel with
  | zero => intro n c hc; simp [natDigitsAux] at hc
  | succ f ih =>
    intro n c hc
    by_cases h10 : n < 10
    · simp only [natDigitsAux, if_pos h10] at hc
      simp at hc
      subst hc
      exact isDigitCh_digitChar h10
    · simp only [natDigitsAux, if_neg h10] at hc
      rcases List.mem_append.mp hc with h | h
      · exact ih (n / 10) c h
      · simp at h
        subst h
        exact isDigitCh_digitChar (by omega)

theorem natRepr_all_digits (n : Nat) : ∀ c ∈ (natRepr n).data, isDigitCh c = true :=
  natDigitsAux_all_digits (n + 1) n

theorem natRepr_digits4 {y : Nat} (h1 : 1000 ≤ y) (h2 : y ≤ 9999) :
    (natRepr y).data = [digitChar (y / 1000), digitChar (y / 100 % 10),
      digitChar (y / 10 % 10), digitChar (y % 10)] :=
  natDigitsAux_four (y + 1) y (by omega) h1 (by omega)

theorem natRepr_digits12 {n : Nat} (h2 : n ≤ 99) :
    (∃ a, (natRepr n).data = [a] ∧ isDigitCh a = true) ∨
    (∃ a b, (natRepr n).data = [a, b] ∧ isDigitCh a = true ∧ isDigitCh b = true) := by
  by_cases h10 : n < 10
  · exact Or.inl ⟨digitChar n,
      natDigitsAux_small (n + 1) n (by omega) h10, isDigitCh_digitChar h10⟩
  · exact Or.inr ⟨digitChar (n / 10), digitChar (n % 10),
      natDigitsAux_two (n + 1) n (by omega) (by omega) (by omega),
      isDigitCh_digitChar (by omega), isDigitCh_digitChar (by omega)⟩

theorem strToNat_natRepr {n : Nat} (h : n ≤ 99) : strToNat (natRepr n) = n := by
  by_cases h10 : n < 10
  · have hd : (natRepr n).data = [digitChar n] :=
      natDigitsAux_small (n + 1) n (by omega) h10
    unfold strToNat
    rw [hd]
    simp [List.foldl]
    exact digitVal_digitChar h10
  · have hd : (natRepr n).data = [digitChar (n / 10), digitChar (n % 10)] :=
      natDigitsAux_two (n + 1) n (by omega) (by omega) (by omega)
    unfold strToNat
    rw [hd]
    simp [List.foldl]
    rw [digitVal_digitChar (by omega), digitVal_digitChar (by omega)]
    omega

theorem takeExact_append (p : Char → Bool) :
    ∀ (n : Nat) (t r : List Char), t.length = n → (∀ c ∈ t, p c = true) →
      takeExact p n (t ++ r) = some (t, r) := by
  intro n
  induction n with
  | zero =>
    intro t r h1 _
    rw [List.length_eq_zero.mp h1]
    rfl
  | succ n ih =>
    intro t r h1 h2
    rcases t with _ | ⟨c, t'⟩
    · simp at h1
    · simp only [List.cons_append, takeExact, List.append_eq]
      rw [if_pos (h2 c (by simp))]
      rw [ih t' r (by simpa using h1) (fun x hx => h2 x (by simp [hx]))]

theorem digit_not_sep1 {c : Char} (h : isDigitCh c = true) : isSep1 c = false := by
  have hb := isDigitCh_bounds h
  by_contra hne
  simp only [Bool.not_eq_false] at hne
  unfold isSep1 at hne
  simp at hne
  obtain ((((rfl | rfl) | rfl) | rfl) | rfl) := hne <;> exact absurd hb (by decide)

theorem digit_not_sep2 {c : Char} (h : isDigitCh c = true) : isSep2 c = false := by
  have hb := isDigitCh_bounds h
  by_contra hne
  simp only [Bool.not_eq_false] at hne
  unfold isSep2 at hne
  simp at hne
  obtain ((((rfl | rfl) | rfl) | rfl) | rfl) := hne <;> exact absurd hb (by decide)

theorem matchDateAt_wellformed (yl ml dl : List Char)
    (hy : yl.length = 4) (hyd : ∀ c ∈ yl, isDigitCh c = true)
    (hm : (∃ a, ml = [a] ∧ isDigitCh a = true) ∨
      (∃ a b, ml = [a, b] ∧ isDigitCh a = true ∧ isDigitCh b = true))
    (hd : (∃ a, dl = [a] ∧ isDigitCh a = true) ∨
      (∃ a b, dl = [a, b] ∧ isDigitCh a = true ∧ isDigitCh b = true)) :
    matchDateAt (yl ++ '년' :: ' ' :: (ml ++ '월' :: ' ' :: (dl ++ ['일']))) =
      some (⟨yl⟩, ⟨ml⟩, ⟨dl⟩) := by
  have s1 : isSep1 '년' = true := by decide
  have s2 : isSep1 ' ' = true := by decide
  have s3 : isSep2 '월' = true := by decide
  have s4 : isSep2 ' ' = true := by decide
  have n1 : isDigitCh '월' = false := by decide
  have n2 : isDigitCh '일' = false := by decide
  unfold matchDateAt
  rw [takeExact_append isDigitCh 4 yl _ hy hyd]
  rcases hm with ⟨b1, hml, hb1⟩ | ⟨b1, b2, hml, hb1, hb2⟩ <;>
    rcases hd with ⟨c1, hdl, hc1⟩ | ⟨c1, c2, hdl, hc1, hc2⟩ <;>
    subst hml <;> subst hdl
  · simp [dropClass1Plus, monthThen, takeUpTo2Digits, List.dropWhile,
      s1, s2, s3, s4, n1, n2, hb1, hc1,
      digit_not_sep1 hb1, digit_not_sep2 hc1]
  · simp [dropClass1Plus, monthThen, takeUpTo2Digits, List.dropWhile,
      s1, s2, s3, s4, n1, n2, hb1, hc1, hc2,
      digit_not_sep1 hb1, digit_not_sep2 hc1]
  · simp [dropClass1Plus, monthThen, takeUpTo2Digits, List.dropWhile,
      s1, s2, s3, s4, n1, n2, hb1, hb2, hc1,
      digit_not_sep1 hb1, digit_not_sep2 hc1]
  · simp [dropClass1Plus, monthThen, takeUpTo2Digits, List.dropWhile,
      s1, s2, s3, s4, n1, n2, hb1, hb2, hc1, hc2,
      digit_not_sep1 hb1, digit_not_sep2 hc1]

theorem dateSearch_of_matchDateAt {cs : List Char} {res : String × String × String}
    (h : matchDateAt cs = some res) : dateSearch cs = some res := by
  cases cs with
  | nil => simp [matchDateAt, takeExact] at h
  | cons c t =>
    rw [dateSearch]
    simp [h]

theorem dateSearch_msgOfDate (y m d : Nat)
    (hy1 : 1000 ≤ y) (hy2 : y ≤ 9999) (hm2 : m ≤ 99) (hd2 : d ≤ 99) :
    dateSearch (msgOfDate y m d).data = some (natRepr y, natRepr m, natRepr d) := by
  have hy4 := natRepr_digits4 hy1 hy2
  have hdata : (msgOfDate y m d).data =
      (natRepr y).data ++ '년' :: ' ' ::
        ((natRepr m).data ++ '월' :: ' ' :: ((natRepr d).data ++ ['일'])) := by
    simp [msgOfDate, strData_append]
  have hmatch := matchDateAt_wellformed (natRepr y).data (natRepr m).data (natRepr d).data
    (by rw [hy4]; rfl) (natRepr_all_digits y) (natRepr_digits12 hm2) (natRepr_digits12 hd2)
  rw [hdata]
  exact dateSearch_of_matchDateAt hmatch

/-! ## The time regex never matches a message without the char 시 -/

theorem hourThen_mem_si {cs : List Char} {x : String × List Char}
    (hh : hourThen cs = some x) : '시' ∈ cs := by
  rcases cs with _ | ⟨c1, _ | ⟨c2, _ | ⟨c3, rest⟩⟩⟩ <;> simp only [hourThen] at hh
  · exact absurd hh (by simp)
  · exact absurd hh (by simp)
  · by_cases hc : (isDigitCh c1 && (c2 == '시')) = true
    · simp at hc
      simp [hc.2]
    · rw [if_neg hc] at hh
      exact absurd hh (by simp)
  · by_cases hc : (isDigitCh c1 && isDigitCh c2 && (c3 == '시')) = true
    · simp at hc
      simp [hc.2]
    · rw [if_neg hc] at hh
      by_cases hc2 : (isDigitCh c1 && (c2 == '시')) = true
      · simp at hc2
        simp [hc2.2]
      · rw [if_neg hc2] at hh
        exact absurd hh (by simp)

theorem timeCore_mem_si {cs : List Char} {x : String × Option String}
    (ht : timeCore cs = some x) : '시' ∈ cs := by
  unfold timeCore at ht
  cases hh : hourThen (cs.dropWhile isSpaceCh) with
  | none => simp only [hh] at ht; exact absurd ht (by simp)
  | some pr =>
    exact (List.dropWhile_sublist isSpaceCh).subset (hourThen_mem_si hh)

theorem matchTimeNoAmpm_mem_si {cs : List Char}
    {x : Option String × String × Option String}
    (ht : matchTimeNoAmpm cs = some x) : '시' ∈ cs := by
  unfold matchTimeNoAmpm at ht
  cases hc : timeCore cs with
  | none => simp only [hc] at ht; exact absurd ht (by simp)
  | some pr => exact timeCore_mem_si hc

theorem matchTimeAt_mem_si {cs : List Char}
    {x : Option String × String × Option String}
    (ht : matchTimeAt cs = some x) : '시' ∈ cs := by
  unfold matchTimeAt at ht
  by_cases h1 : ("오전".data).isPrefixOf cs = true
  · rw [if_pos h1] at ht
    cases hc : timeCore (cs.drop 2) with
    | none => simp only [hc] at ht; exact matchTimeNoAmpm_mem_si ht
    | some pr => exact List.drop_subset 2 cs (timeCore_mem_si hc)
  · rw [if_neg h1] at ht
    by_cases h2 : ("오후".data).isPrefixOf cs = true
    · rw [if_pos h2] at ht
      cases hc : timeCore (cs.drop 2) with
      | none => simp only [hc] at ht; exact matchTimeNoAmpm_mem_si ht
      | some pr => exact List.drop_subset 2 cs (timeCore_mem_si hc)
    · rw [if_neg h2] at ht
      exact matchTimeNoAmpm_mem_si ht

theorem timeSearch_none_of_no_si {cs : List Char} (hno : '시' ∉ cs) :
    timeSearch cs = none := by
  induction cs with
  | nil => rfl
  | cons c t ih =>
    rw [timeSearch]
    cases hm : matchTimeAt (c :: t) with
    | some res => exact absurd (matchTimeAt_mem_si hm) hno
    | none =>
      simp only [hm]
      exact ih (fun hmem => hno (List.mem_cons_of_mem c hmem))

theorem no_si_of_parts (yl ml dl : List Char)
    (hy : ∀ c ∈ yl, isDigitCh c = true) (hm : ∀ c ∈ ml, isDigitCh c = true)
    (hd : ∀ c ∈ dl, isDigitCh c = true) :
    '시' ∉ (yl ++ '년' :: ' ' :: (ml ++ '월' :: ' ' :: (dl ++ ['일']))) := by
  intro hmem
  rcases List.mem_append.mp hmem with h | h
  · exact absurd (hy _ h) (by decide)
  · simp only [List.mem_cons] at h
    rcases h with h | h
    · exact absurd h (by decide)
    rcases h with h | h
    · exact absurd h (by decide)
    rcases List.mem_append.mp h with h | h
    · exact absurd (hm _ h) (by decide)
    simp only [List.mem_cons] at h
    rcases h with h | h
    · exact absurd h (by decide)
    rcases h with h | h
    · exact absurd h (by decide)
    rcases List.mem_append.mp h with h | h
    · exact absurd (hd _ h) (by decide)
    simp only [List.mem_cons] at h
    rcases h with h | h
    · exact absurd h (by decide)
    exact absurd h (by simp)

theorem msgOfDate_no_si (y m d : Nat) : '시' ∉ (msgOfDate y m d).data := by
  have hdata : (msgOfDate y m d).data =
      (natRepr y).data ++ '년' :: ' ' ::
        ((natRepr m).data ++ '월' :: ' ' :: ((natRepr d).data ++ ['일'])) := by
    simp [msgOfDate, strData_append]
  rw [hdata]
  exact no_si_of_parts _ _ _ (natRepr_all_digits y) (natRepr_all_digits m)
    (natRepr_all_digits d)

/-! ## C4: date without time defaults to noon -/

theorem noon_tail (p : String) :
    p ++ "T" ++ fmt02 12 ++ ":" ++ fmt02 0 ++ ":00+09:00" = p ++ "T12:00:00+09:00" := by
  apply strDataEq
  simp only [strData_append]
  have h12 : (fmt02 12).data = ['1', '2'] := rfl
  have h0 : (fmt02 0).data = ['0', '0'] := rfl
  rw [h12, h0]
  simp

/-- Helper: if the date regex matched and the time regex did not, the
committed value is the captured groups joined with zero-padded month and
day and the noon default. -/
theorem parse_datetime_noon (env : Env) (input : String) (session : Fields)
    (y m d : String)
    (hdm : dateSearch input.data = some (y, m, d))
    (htm : timeSearch input.data = none) :
    (parse_and_store_user_info env input session).datetime =
      some (y ++ "-" ++ fmt02 (strToNat m) ++ "-" ++ fmt02 (strToNat d) ++
        "T12:00:00+09:00") := by
  have htail := noon_tail (y ++ "-" ++ fmt02 (strToNat m) ++ "-" ++ fmt02 (strToNat d))
  rcases hp : extract_place input with _ | pl <;>
  rcases hg : extract_gender input with _ | g <;>
    simp [parse_and_store_user_info, hdm, htm, hp, hg] <;>
    exact htail

/-- C4: (i) for every message in which the date regex matches and the
time regex does not, the extractor commits exactly the captured year,
zero-padded month and day, and the noon default, in the shape
`YYYY-MM-DDT12:00:00+09:00`; (ii) in particular, for every literal
well-formed date message `Y년 M월 D일` (four-digit year, month 1-12, day
1-31) the committed value is exactly that date at noon — such a message
never contains a time expression. -/
theorem C4_date_defaults_noon :
    (∀ (env : Env) (input : String) (session : Fields) (y m d : String),
      dateSearch input.data = some (y, m, d) → timeSearch input.data = none →
      (parse_and_store_user_info env input session).datetime =
        some (y ++ "-" ++ fmt02 (strToNat m) ++ "-" ++ fmt02 (strToNat d) ++
          "T12:00:00+09:00")) ∧
    (∀ (env : Env) (session : Fields) (y m d : Nat),
      1000 ≤ y → y ≤ 9999 → 1 ≤ m → m ≤ 12 → 1 ≤ d → d ≤ 31 →
      (parse_and_store_user_info env (msgOfDate y m d) session).datetime =
        some (natRepr y ++ "-" ++ fmt02 m ++ "-" ++ fmt02 d ++ "T12:00:00+09:00")) := by
  constructor
  · exact parse_datetime_noon
  · intro env session y m d hy1 hy2 hm1 hm2 hd1 hd2
    have hds := dateSearch_msgOfDate y m d hy1 hy2 (by omega) (by omega)
    have hts := timeSearch_none_of_no_si (msgOfDate_no_si y m d)
    have hp := parse_datetime_noon env (msgOfDate y m d) session _ _ _ hds hts
    rw [strToNat_natRepr (by omega), strToNat_natRepr (by omega)] at hp
    exact hp

/-- C4 witness: a concrete well-formed date with no time expression
yields exactly the zero-padded noon timestamp. -/
theorem C4_witness :
    (parse_and_store_user_info env0 "1990년 3월 5일" emptyFields).datetime =
      some "1990-03-05T12:00:00+09:00" :=
  C4_date_defaults_noon.2 env0 emptyFields 1990 3 5 (by norm_num) (by norm_num)
    (by norm_num) (by norm_num) (by norm_num) (by norm_num)

end Odha
